import Mathlib

/-!
Shallow embedding of the stack-machine bytecode interpreter in
`src/solutions/interpret.py` (`ExtendedInterpreter`), together with proofs
about the claims of the specification.

Modelling conventions:
* Python ints are `Int`; Python bools are `Bool`.  A stack/local entry is a
  `Value`, the tagged union of the two; Python arithmetic and comparisons on
  mixed bool/int operands coerce a bool to 0/1, modelled by `Value.toInt`.
* The operand stack is a `List Value` whose head is the top (the Python code
  uses `insert(0, ...)` / `pop(0)`).
* An escaping Python exception (IndexError from `bytecode[pc]`,
  `stack.pop(0)` on an empty list, or an out-of-range `locals[index]`)
  is the `crash` result.
* Python's `//` is floor division, modelled by `Int.fdiv`.
* The `done` field is `Optional` in Python but may hold an int or a bool
  (from `ireturn`) or a string; `Outcome` is the union of these.  The check
  `if self.done:` is Python truthiness, modelled by `Outcome.truthy`
  (0 and False are falsy; every status string used is non-empty, hence
  truthy).
-/

namespace Interp

/-- The two JVM primitive kinds handled by the interpreter. -/
inductive JvmType where
  | boolean : JvmType
  | int : JvmType
deriving DecidableEq, Repr

/-- A stack/local value: a Python int or bool. -/
inductive Value where
  | VInt : Int → Value
  | VBool : Bool → Value
deriving DecidableEq, Repr

/-- Python numeric coercion of a value: `True` is 1, `False` is 0. -/
def Value.toInt : Value → Int
  | .VInt n => n
  | .VBool b => if b then 1 else 0

/-- One bytecode instruction record, as dispatched by opcode name
(`step_push`, `step_pop`, ...).  `unknown` stands for any opcode string with
no `step_` handler.  `ret` is `step_return`, carrying the optional declared
return type; `if_icmpge`/`if_icmpne` carry the jump target; `load`/`store`
carry the local slot index; `push` carries the literal value. -/
inductive Instr where
  | push : Value → Instr
  | pop : Instr
  | dup : Instr
  | swap : Instr
  | nop : Instr
  | add : Instr
  | subtract : Instr
  | multiply : Instr
  | divide : Instr
  | if_icmpge : Nat → Instr
  | if_icmpne : Nat → Instr
  | load : Nat → Instr
  | store : Nat → Instr
  | ret : Option JvmType → Instr
  | ireturn : Instr
  | unknown : String → Instr
deriving DecidableEq, Repr

/-- A value the `done` field can hold once set, or that `interpret` can
return: the popped value from `ireturn`, the status strings `"ok"`,
`"divide by zero"`, `"out of time"`, or a `"can't handle <opcode>"`
string. -/
inductive Outcome where
  | value : Value → Outcome
  | ok : Outcome
  | divByZero : Outcome
  | outOfTime : Outcome
  | cantHandle : String → Outcome
deriving DecidableEq, Repr

/-- Python truthiness of a `done` value, as tested by `if self.done:`.
An int is truthy iff non-zero, a bool iff `True`; the status strings are
non-empty, hence truthy. -/
def Outcome.truthy : Outcome → Bool
  | .value v => v.toInt != 0
  | .ok => true
  | .divByZero => true
  | .outOfTime => true
  | .cantHandle _ => true

/-- The mutable machine state of `ExtendedInterpreter`. -/
structure InterpState where
  bytecode : List Instr
  locals : List Value
  stack : List Value
  pc : Nat
  done : Option Outcome
deriving DecidableEq, Repr

/-- Result of dispatching a single instruction: an escaping exception
(`crash`), a missing `step_` handler (`noHandler`, making `interpret`
return the `"can't handle"` string), or the updated state. -/
inductive StepResult where
  | crash : StepResult
  | noHandler : String → StepResult
  | next : InterpState → StepResult
deriving DecidableEq, Repr

/-- Dispatch of one instruction: the `step_<opcode>` methods of
`ExtendedInterpreter`, translated case by case from the source. -/
def step (instr : Instr) (s : InterpState) : StepResult :=
  match instr with
  | .push v => .next { s with stack := v :: s.stack, pc := s.pc + 1 }
  | .pop =>
    match s.stack with
    | [] => .crash
    | _ :: rest => .next { s with stack := rest, pc := s.pc + 1 }
  | .dup =>
    match s.stack with
    | [] => .crash
    | x :: rest => .next { s with stack := x :: x :: rest, pc := s.pc + 1 }
  | .swap =>
    match s.stack with
    | a :: b :: rest => .next { s with stack := b :: a :: rest, pc := s.pc + 1 }
    | _ => .crash
  | .nop => .next { s with pc := s.pc + 1 }
  | .add =>
    match s.stack with
    | a :: b :: rest =>
      .next { s with stack := .VInt (a.toInt + b.toInt) :: rest, pc := s.pc + 1 }
    | _ => .crash
  | .subtract =>
    match s.stack with
    | a :: b :: rest =>
      .next { s with stack := .VInt (b.toInt - a.toInt) :: rest, pc := s.pc + 1 }
    | _ => .crash
  | .multiply =>
    match s.stack with
    | a :: b :: rest =>
      .next { s with stack := .VInt (a.toInt * b.toInt) :: rest, pc := s.pc + 1 }
    | _ => .crash
  | .divide =>
    match s.stack with
    | a :: b :: rest =>
      if a.toInt = 0 then
        .next { s with stack := rest, done := some .divByZero, pc := s.pc + 1 }
      else
        .next { s with stack := .VInt (Int.fdiv b.toInt a.toInt) :: rest, pc := s.pc + 1 }
    | _ => .crash
  | .if_icmpge t =>
    match s.stack with
    | a :: b :: rest =>
      if b.toInt ≥ a.toInt then .next { s with stack := rest, pc := t }
      else .next { s with stack := rest, pc := s.pc + 1 }
    | _ => .crash
  | .if_icmpne t =>
    match s.stack with
    | a :: b :: rest =>
      if a.toInt ≠ b.toInt then .next { s with stack := rest, pc := t }
      else .next { s with stack := rest, pc := s.pc + 1 }
    | _ => .crash
  | .load i =>
    match s.locals[i]? with
    | none => .crash
    | some v => .next { s with stack := v :: s.stack, pc := s.pc + 1 }
  | .store i =>
    match s.stack with
    | [] => .crash
    | v :: rest =>
      if i < s.locals.length then
        .next { s with locals := s.locals.set i v, stack := rest, pc := s.pc + 1 }
      else .crash
  | .ret typ =>
    match typ with
    | none => .next { s with done := some .ok }
    | some _ =>
      match s.stack with
      | [] => .crash
      | _ :: rest => .next { s with stack := rest, done := some .ok }
  | .ireturn =>
    match s.stack with
    | [] => .crash
    | v :: rest => .next { s with stack := rest, done := some (.value v) }
  | .unknown opr => .noHandler opr

/-- The result of a whole run: either an escaping exception or the value
returned by `interpret`. -/
inductive RunResult where
  | crash : RunResult
  | res : Outcome → RunResult
deriving DecidableEq, Repr

/-- The `interpret` loop of `ExtendedInterpreter`, with the step budget as
fuel.  Each iteration fetches `bytecode[pc]` (IndexError escapes as
`crash`), dispatches (a missing handler returns the `"can't handle"`
string immediately), then tests `if self.done:` — a truthy `done` breaks
and is returned.  Exhausting the budget runs the `for`/`else` branch,
which overwrites `done` with `"out of time"` and returns it. -/
def interpret : Nat → InterpState → RunResult
  | 0, _ => .res .outOfTime
  | n + 1, s =>
    match s.bytecode[s.pc]? with
    | none => .crash
    | some instr =>
      match step instr s with
      | .crash => .crash
      | .noHandler opr => .res (.cantHandle opr)
      | .next s' =>
        match s'.done with
        | some d => if d.truthy then .res d else interpret n s'
        | none => interpret n s'

/-- A full run: `create_interpreter` builds the state with the given
bytecode, the caller-supplied inputs as locals, an empty stack and
`pc = 0`, and `interpret` drives it for at most `limit` steps (the Python
default is 100). -/
def run (instrs : List Instr) (initLocals : List Value) (limit : Nat) : RunResult :=
  interpret limit { bytecode := instrs, locals := initLocals, stack := [], pc := 0, done := none }

/-- One loop iteration that dispatches cleanly and produces no terminal
outcome: the fetch succeeds, the handler exists and does not raise, and
`done` is still unset afterwards.  Used to phrase "the loop completes an
iteration without any instruction producing an outcome". -/
def advance (s : InterpState) : Option InterpState :=
  match s.bytecode[s.pc]? with
  | none => none
  | some instr =>
    match step instr s with
    | .next s' => if s'.done = none then some s' else none
    | _ => none

/-- Iterates `advance` for `n` consecutive clean iterations. -/
def advanceN : Nat → InterpState → Option InterpState
  | 0, s => some s
  | n + 1, s =>
    match advance s with
    | none => none
    | some s' => advanceN n s'

/-- Helper: an `"out of time"` result is preserved when the step budget
shrinks.  The loop is deterministic, so the first `m` iterations of a run
under a larger budget are exactly the iterations of the run under the
smaller one; if the larger run exhausted its budget without a truthy
`done`, a crash, or a missing handler, so does every smaller run. -/
theorem interpret_outOfTime_mono :
    ∀ (n m : Nat) (s : InterpState), m ≤ n →
      interpret n s = .res .outOfTime → interpret m s = .res .outOfTime := by
  intro n
  induction n with
  | zero =>
    intro m s hm h
    have hz : m = 0 := Nat.le_zero.mp hm
    subst hz
    exact h
  | succ k ih =>
    intro m s hm h
    match m with
    | 0 => rfl
    | m' + 1 =>
      have hm' : m' ≤ k := Nat.succ_le_succ_iff.mp hm
      cases hfetch : s.bytecode[s.pc]? with
      | none =>
        simp only [interpret, hfetch] at h
        exact absurd h (by simp)
      | some instr =>
        cases hstep : step instr s with
        | crash =>
          simp only [interpret, hfetch, hstep] at h
          exact absurd h (by simp)
        | noHandler opr =>
          simp only [interpret, hfetch, hstep] at h
          exact absurd h (by simp)
        | next s' =>
          cases hdone : s'.done with
          | none =>
            simp only [interpret, hfetch, hstep, hdone] at h ⊢
            exact ih m' s' hm' h
          | some d =>
            by_cases ht : d.truthy = true
            · simp only [interpret, hfetch, hstep, hdone, if_pos ht] at h ⊢
              exact h
            · simp only [interpret, hfetch, hstep, hdone, if_neg ht] at h ⊢
              exact ih m' s' hm' h

/-- Helper: if `n` iterations all dispatch cleanly with `done` never set,
the loop exhausts its budget and returns `"out of time"`. -/
theorem interpret_of_advanceN :
    ∀ (n : Nat) (s : InterpState), (advanceN n s).isSome = true →
      interpret n s = .res .outOfTime := by
  intro n
  induction n with
  | zero => intro s _; rfl
  | succ k ih =>
    intro s h
    cases hfetch : s.bytecode[s.pc]? with
    | none => simp [advanceN, advance, hfetch] at h
    | some instr =>
      cases hstep : step instr s with
      | crash => simp [advanceN, advance, hfetch, hstep] at h
      | noHandler opr => simp [advanceN, advance, hfetch, hstep] at h
      | next s' =>
        cases hdone : s'.done with
        | some d => simp [advanceN, advance, hfetch, hstep, hdone] at h
        | none =>
          have h' : (advanceN k s').isSome = true := by
            simpa [advanceN, advance, hfetch, hstep, hdone] using h
          simp only [interpret, hfetch, hstep, hdone]
          exact ih s' h'

/-- Claim C1 (failing input): `interpret` tests termination with the
Python-truthiness check `if self.done:`, so an `ireturn` whose popped
value is the integer 0 does not stop the loop.  On
`[push 0, ireturn]` the loop re-executes the `ireturn` against the
now-empty stack and the run crashes with an escaping IndexError instead
of returning the outcome 0 the claim requires. -/
theorem c1_ireturn_zero_crashes :
    run [.push (.VInt 0), .ireturn] [] 100 = .crash ∧
    run [.push (.VInt 0), .ireturn] [] 100 ≠ .res (.value (.VInt 0)) := by
  decide

/-- Claim C2 (failing input): a terminal outcome written by `ireturn` is
absorbing only when it is truthy.  On `[push 7, push 0, ireturn]` the
dispatch of `ireturn` sets the outcome 0, yet the loop dispatches the same
`ireturn` again and the run returns 7; the second conjunct shows the loop
continuing directly from the state whose outcome field already holds 0. -/
theorem c2_zero_outcome_not_absorbing :
    run [.push (.VInt 7), .push (.VInt 0), .ireturn] [] 100 = .res (.value (.VInt 7)) ∧
    run [.push (.VInt 7), .push (.VInt 0), .ireturn] [] 100 ≠ .res (.value (.VInt 0)) ∧
    interpret 97 ⟨[.push (.VInt 7), .push (.VInt 0), .ireturn], [], [.VInt 7], 2,
      some (.value (.VInt 0))⟩ = .res (.value (.VInt 7)) := by
  decide

/-- Claim C3 (counterexample): executing `pop` on an empty operand stack
does not produce an explicit terminal outcome — `self.stack.pop(0)` raises
IndexError and the exception escapes `interpret`. -/
theorem c3_counterexample : run [Instr.pop] [] 100 = RunResult.crash := by
  decide

/-- Claim C3 (amended): division by zero, an unknown opcode, and budget
exhaustion do yield explicit terminal outcomes, but an empty-stack `pop`,
an out-of-range local index in `load`, and a program counter outside the
instruction sequence raise an unhandled IndexError (a crash), not an
explicit outcome. -/
theorem c3_amended_error_handling :
    run [.push (.VInt 5), .push (.VInt 0), .divide, .ireturn] [] 100 = .res .divByZero ∧
    run [.unknown "goto"] [] 100 = .res (.cantHandle "goto") ∧
    (∀ (instrs : List Instr) (locals : List Value), run instrs locals 0 = .res .outOfTime) ∧
    run [.pop] [] 100 = .crash ∧
    run [.load 0] [] 100 = .crash ∧
    run [.nop] [] 100 = .crash := by
  exact ⟨by decide, by decide, fun instrs locals => rfl, by decide, by decide, by decide⟩

/-- Claim C4: when the popped divisor is (numerically) zero, `divide` sets
the terminal outcome `"divide by zero"`, leaves the stack exactly as it is
after the two pops (no push), advances `pc`, does not crash, and the whole
run returns `"divide by zero"` — for every dividend. -/
theorem c4_divide_by_zero (n : Nat) (s : InterpState) (a b : Value) (rest : List Value)
    (hfetch : s.bytecode[s.pc]? = some .divide)
    (hstack : s.stack = a :: b :: rest)
    (ha : a.toInt = 0) :
    step .divide s = .next { s with stack := rest, done := some .divByZero, pc := s.pc + 1 } ∧
    interpret (n + 1) s = .res .divByZero := by
  constructor
  · simp [step, hstack, ha]
  · simp [interpret, hfetch, step, hstack, ha, Outcome.truthy]

/-- Witness for C4 at dividend 5 and divisor 0. -/
theorem c4_witness :
    step .divide ⟨[.divide], [], [.VInt 0, .VInt 5], 0, none⟩ =
      .next ⟨[.divide], [], [], 1, some .divByZero⟩ ∧
    interpret 10 ⟨[.divide], [], [.VInt 0, .VInt 5], 0, none⟩ = .res .divByZero := by
  exact c4_divide_by_zero 9 ⟨[.divide], [], [.VInt 0, .VInt 5], 0, none⟩
    (.VInt 0) (.VInt 5) [] rfl rfl rfl

/-- Claim C5: the `"out of time"` outcome is monotone in the step limit —
if a run exhausts limit `L`, every run of the same program and locals with
a smaller limit also returns `"out of time"`. -/
theorem c5_outOfTime_monotone (instrs : List Instr) (locals : List Value) (L Lp : Nat)
    (hlt : Lp < L) (h : run instrs locals L = .res .outOfTime) :
    run instrs locals Lp = .res .outOfTime :=
  interpret_outOfTime_mono L Lp _ (Nat.le_of_lt hlt) h

/-- Witness for C5 on an infinite loop (`0 >= 0` branch back to pc 0),
shrinking the limit from 10 to 5. -/
theorem c5_witness :
    run [.push (.VInt 0), .push (.VInt 0), .if_icmpge 0] [] 5 = .res .outOfTime :=
  c5_outOfTime_monotone [.push (.VInt 0), .push (.VInt 0), .if_icmpge 0] [] 10 5
    (by decide) (by decide)

/-- Claim C6: `divide` performs floor division (`Int.fdiv`, rounding
toward negative infinity, like Python `//`) of the earlier-pushed operand
by the later-pushed one: with divisor `a` on top (pushed later) and
dividend `b` below, it pushes `Int.fdiv b a`. -/
theorem c6_divide_floor (s : InterpState) (a b : Int) (rest : List Value)
    (hstack : s.stack = .VInt a :: .VInt b :: rest) (ha : a ≠ 0) :
    step .divide s = .next { s with stack := .VInt (Int.fdiv b a) :: rest, pc := s.pc + 1 } := by
  simp [step, hstack, Value.toInt, ha]

/-- Witness for C6: pushing -7 then 2 and dividing pushes -4 (not -3). -/
theorem c6_witness :
    step .divide ⟨[.divide], [], [.VInt 2, .VInt (-7)], 0, none⟩ =
      .next ⟨[.divide], [], [.VInt (-4)], 1, none⟩ := by
  exact c6_divide_floor ⟨[.divide], [], [.VInt 2, .VInt (-7)], 0, none⟩ 2 (-7) [] rfl
    (by decide)

/-- Claim C7: `subtract` pops `a` (the later-pushed top), pops `b`, and
pushes `b - a`, so the earlier-pushed operand is the minuend. -/
theorem c7_subtract_order (s : InterpState) (a b : Value) (rest : List Value)
    (hstack : s.stack = a :: b :: rest) :
    step .subtract s = .next { s with stack := .VInt (b.toInt - a.toInt) :: rest, pc := s.pc + 1 } := by
  simp [step, hstack]

/-- Witness for C7: pushing 10 then 3 and subtracting leaves 7 on top. -/
theorem c7_witness :
    step .subtract ⟨[.subtract], [], [.VInt 3, .VInt 10], 0, none⟩ =
      .next ⟨[.subtract], [], [.VInt 7], 1, none⟩ := by
  exact c7_subtract_order ⟨[.subtract], [], [.VInt 3, .VInt 10], 0, none⟩
    (.VInt 3) (.VInt 10) [] rfl

/-- Claim C8: if `limit` consecutive loop iterations all dispatch cleanly
without any instruction producing a terminal outcome (`advanceN` succeeds),
the run returns exactly `"out of time"`. -/
theorem c8_budget_exhaustion (instrs : List Instr) (locals : List Value) (limit : Nat)
    (h : (advanceN limit ⟨instrs, locals, [], 0, none⟩).isSome = true) :
    run instrs locals limit = .res .outOfTime :=
  interpret_of_advanceN limit _ h

/-- Witness for C8 on the infinite loop with limit 9. -/
theorem c8_witness :
    run [.push (.VInt 0), .push (.VInt 0), .if_icmpge 0] [] 9 = .res .outOfTime :=
  c8_budget_exhaustion [.push (.VInt 0), .push (.VInt 0), .if_icmpge 0] [] 9 (by decide)

/-- Claim C9: `store` of the top value `v` into a valid slot `i` followed
by `load` of slot `i` pushes exactly `v` back onto the stack, for any
`Value` (integer or boolean alike). -/
theorem c9_store_load_roundtrip (s : InterpState) (i : Nat) (v : Value) (rest : List Value)
    (hstack : s.stack = v :: rest) (hi : i < s.locals.length) :
    step (.store i) s =
      .next { s with locals := s.locals.set i v, stack := rest, pc := s.pc + 1 } ∧
    step (.load i) { s with locals := s.locals.set i v, stack := rest, pc := s.pc + 1 } =
      .next { s with locals := s.locals.set i v, stack := v :: rest, pc := s.pc + 1 + 1 } := by
  constructor
  · simp [step, hstack, hi]
  · simp [step, List.getElem?_set_eq_of_lt v (by simpa using hi)]

/-- Witness for C9 with the boolean value `true` stored over an integer. -/
theorem c9_witness :
    step (.store 0) ⟨[.store 0, .load 0], [.VInt 9], [.VBool true], 0, none⟩ =
      .next ⟨[.store 0, .load 0], [.VBool true], [], 1, none⟩ ∧
    step (.load 0) ⟨[.store 0, .load 0], [.VBool true], [], 1, none⟩ =
      .next ⟨[.store 0, .load 0], [.VBool true], [.VBool true], 2, none⟩ := by
  exact c9_store_load_roundtrip ⟨[.store 0, .load 0], [.VInt 9], [.VBool true], 0, none⟩
    0 (.VBool true) [] rfl (by decide)

/-- Claim C10: the four arithmetic opcodes (`add`, `subtract`, `multiply`,
`divide`) accept boolean operands without failing, coercing `true` to 1 and
`false` to 0 (Python bools are ints).  For `divide`, a `true` divisor is
the coerced integer 1 and the quotient is pushed, while a `false` divisor
is the coerced integer 0 and takes the ordinary divide-by-zero path (an
explicit outcome, not a crash).  In particular `add` on `true` and `true`
pushes the integer 2 and the full run of `[push true, push true, add,
ireturn]` returns the value 2. -/
theorem c10_bool_arithmetic (s : InterpState) (b1 b2 : Bool) (rest : List Value)
    (hstack : s.stack = .VBool b1 :: .VBool b2 :: rest) :
    (Value.VBool true).toInt = 1 ∧ (Value.VBool false).toInt = 0 ∧
    step .add s = .next { s with
      stack := .VInt ((Value.VBool b1).toInt + (Value.VBool b2).toInt) :: rest, pc := s.pc + 1 } ∧
    step .subtract s = .next { s with
      stack := .VInt ((Value.VBool b2).toInt - (Value.VBool b1).toInt) :: rest, pc := s.pc + 1 } ∧
    step .multiply s = .next { s with
      stack := .VInt ((Value.VBool b1).toInt * (Value.VBool b2).toInt) :: rest, pc := s.pc + 1 } ∧
    step .divide s = (if b1 then
      .next { s with
        stack := .VInt (Int.fdiv ((Value.VBool b2).toInt) 1) :: rest, pc := s.pc + 1 }
      else
      .next { s with stack := rest, done := some .divByZero, pc := s.pc + 1 }) ∧
    run [.push (.VBool true), .push (.VBool true), .add, .ireturn] [] 100 =
      .res (.value (.VInt 2)) := by
  refine ⟨rfl, rfl, ?_, ?_, ?_, ?_, by decide⟩ <;> cases b1 <;>
    simp [step, hstack, Value.toInt]

/-- Witness for C10: `add` on two `true` operands pushes the integer 2;
`divide` with divisor `true` pushes the quotient 1, and with divisor
`false` sets the divide-by-zero outcome instead of crashing. -/
theorem c10_witness :
    step .add ⟨[.add], [], [.VBool true, .VBool true], 0, none⟩ =
      .next ⟨[.add], [], [.VInt 2], 1, none⟩ ∧
    step .divide ⟨[.divide], [], [.VBool true, .VBool true], 0, none⟩ =
      .next ⟨[.divide], [], [.VInt 1], 1, none⟩ ∧
    step .divide ⟨[.divide], [], [.VBool false, .VBool true], 0, none⟩ =
      .next ⟨[.divide], [], [], 1, some .divByZero⟩ := by
  refine ⟨?_, ?_, ?_⟩
  · exact (c10_bool_arithmetic ⟨[.add], [], [.VBool true, .VBool true], 0, none⟩
      true true [] rfl).2.2.1
  · exact (c10_bool_arithmetic ⟨[.divide], [], [.VBool true, .VBool true], 0, none⟩
      true true [] rfl).2.2.2.2.2.1
  · exact (c10_bool_arithmetic ⟨[.divide], [], [.VBool false, .VBool true], 0, none⟩
      false true [] rfl).2.2.2.2.2.1

end Interp
